import Mathlib

/-!
Shallow embedding of the Stocks-analyzer core (scorer.py, signals.py,
recommender.py, loader.py backtest helpers) and proofs about it.

Conventions of the embedding:
* Python floats are modelled as rationals (`ℚ`); every threshold used by the
  code (0.7, 1.2, 20.0, …) is an exact decimal, so all comparisons agree with
  the real-number reading of the source.
* A Python snapshot dict is a fixed-shape structure whose fields are all
  `Option`-valued; each call site applies its own default, mirroring
  `s.get(key, default)` in the source.
* Python dicts keyed by date/symbol are association lists
  (`List (String × α)`); `d.get(k, default)` is `(List.lookup k d).getD default`
  and iteration order is list order (Python dicts iterate in insertion order).
* `list.sort(key=…, reverse=True)` (a stable sort) is modelled by a stable
  insertion sort `pySortBy` parameterised by the ≥-by-key relation.
* Human-readable explanation strings (the second component of the `reasons`
  values in `outrunner_conviction`, built with f-string number formatting) are
  presentation-only and are not carried by the model; the per-factor points,
  which the spec talks about, are.
-/

namespace StocksAnalyzer

/-- One per-symbol, per-date market snapshot (the field-mapped dict produced by
the data layer, consumed by `scorer.py` / `signals.py` / `recommender.py`).
All fields are optional: the source reads every field with `s.get(key, default)`
and the default lives at each call site. -/
structure Snapshot where
  symbol : Option String := none
  stock_name : Option String := none
  sector : Option String := none
  industry : Option String := none
  mcap_category : Option String := none
  lot_size : Option ℚ := none
  close : Option ℚ := none
  change_pct : Option ℚ := none
  oi_trend : Option String := none
  cumulative_future_oi : Option ℚ := none
  oi_change_pct : Option ℚ := none
  cumulative_call_oi : Option ℚ := none
  cumulative_put_oi : Option ℚ := none
  pcr : Option ℚ := none
  pcr_change_1d : Option ℚ := none
  volume_times : Option ℚ := none
  delivery_times : Option ℚ := none
  call_oi_change_pct : Option ℚ := none
  put_oi_change_pct : Option ℚ := none
  deriving DecidableEq, Repr

/-- scorer.py: `BULLISH = {"NewLong", "ShortCover"}`. -/
def BULLISH : List String := ["NewLong", "ShortCover"]

/-- signals.py: `BEARISH_TRENDS = {"NewShort", "LongCover"}`. -/
def BEARISH_TRENDS : List String := ["NewShort", "LongCover"]

/-- scorer.py: `OI_SCORES.get(t, 0)` — the OI-trend points table with its
silent 0 default for unknown trends. -/
def OI_SCORES (t : String) : ℤ :=
  if t = "NewLong" then 8
  else if t = "NewShort" then -8
  else if t = "ShortCover" then 8
  else if t = "LongCover" then -8
  else if t = "Neutral" then 0
  else 0

/-- scorer.py `base_score`: composite score for one stock dict.  Each
`if/elif` block that does `sc += n` is rendered as adding an if-chain whose
final `else` contributes 0, exactly as the source falls through. -/
def base_score (s : Snapshot) : ℤ :=
  let sc := OI_SCORES (s.oi_trend.getD "")
  let pcr := s.pcr.getD 0
  let pcr_chg := s.pcr_change_1d.getD 0
  let sc := sc + (if pcr < 0.7 then 7 else if pcr ≤ 0.9 then 6
                  else if pcr ≤ 1.0 then 3 else if pcr > 1.2 then -3 else 0)
  let sc := sc + (if pcr_chg > 0.1 then -3 else if pcr_chg < -0.1 then 3
                  else if pcr_chg < 0 ∧ pcr < 1.0 then 2 else 0)
  let oi := s.oi_change_pct.getD 0
  let sc := sc + (if oi > 10 then 8 else if oi > 5 then 5 else if oi > 2 then 3
                  else if oi > 0 then 1 else if oi ≤ -5 then -3 else 0)
  let vol := s.volume_times.getD 0
  let sc := sc + (if vol > 2.0 then 5 else if vol > 1.5 then 4 else if vol > 1.2 then 2
                  else if vol > 1.0 then 1 else if vol ≤ 0.7 then -2 else 0)
  let dlv := s.delivery_times.getD 0
  let sc := sc + (if dlv > 2.0 then 7 else if dlv > 1.5 then 5 else if dlv > 1.2 then 3
                  else if dlv > 1.0 then 2 else if dlv ≤ 0.7 then -2 else 0)
  let chg := s.change_pct.getD 0
  let sc := sc + (if chg > 3 then 5 else if chg > 1 then 2 else if chg > -1 then 0
                  else if chg > -3 then -1 else -3)
  if pcr < 1.0 ∧ vol > 1.0 ∧ dlv > 1.0 ∧ chg > 0 then sc + 2 else sc

/-- scorer.py `score_breakdown`: the per-factor decomposition used for display.
The source duplicates the `base_score` branch logic factor by factor; the
duplication is kept here (the decomposition identity is a theorem, below, not
a definitional fact). -/
def score_breakdown (s : Snapshot) : List (String × ℤ) :=
  let pcr := s.pcr.getD 0
  let pcr_chg := s.pcr_change_1d.getD 0
  let oi := s.oi_change_pct.getD 0
  let vol := s.volume_times.getD 0
  let dlv := s.delivery_times.getD 0
  let chg := s.change_pct.getD 0
  let bdOITrend := OI_SCORES (s.oi_trend.getD "")
  let v : ℤ := if pcr < 0.7 then 7 else if pcr ≤ 0.9 then 6
               else if pcr ≤ 1.0 then 3 else if pcr > 1.2 then -3 else 0
  let v := if pcr_chg > 0.1 then v - 3 else if pcr_chg < -0.1 then v + 3
           else if pcr_chg < 0 ∧ pcr < 1.0 then v + 2 else v
  let bdOIChg : ℤ := if oi > 10 then 8 else if oi > 5 then 5 else if oi > 2 then 3
                     else if oi > 0 then 1 else if oi ≤ -5 then -3 else 0
  let bdVol : ℤ := if vol > 2.0 then 5 else if vol > 1.5 then 4 else if vol > 1.2 then 2
                   else if vol > 1.0 then 1 else if vol ≤ 0.7 then -2 else 0
  let bdDlv : ℤ := if dlv > 2.0 then 7 else if dlv > 1.5 then 5 else if dlv > 1.2 then 3
                   else if dlv > 1.0 then 2 else if dlv ≤ 0.7 then -2 else 0
  let bdMom : ℤ := if chg > 3 then 5 else if chg > 1 then 2 else if chg > -1 then 0
                   else if chg > -3 then -1 else -3
  let bonus : ℤ := if pcr < 1.0 ∧ vol > 1.0 ∧ dlv > 1.0 ∧ chg > 0 then 2 else 0
  [("OI Trend", bdOITrend), ("PCR", v), ("OI Change", bdOIChg), ("Volume", bdVol),
   ("Delivery", bdDlv), ("Momentum", bdMom), ("Bonus", bonus)]

/-- scorer.py `outrunner_conviction`, OI-trend block: `+4` for ShortCover,
`+3` for NewLong, else 0 — the same points the block stores in `reasons`. -/
def convTrendPts (trend : String) : ℤ :=
  if trend = "ShortCover" then 4 else if trend = "NewLong" then 3 else 0

/-- scorer.py `outrunner_conviction`, market-cap block. -/
def convMcapPts (mcap : String) : ℤ :=
  if mcap = "Mid Cap" then 3 else if mcap = "Large Cap" then 1
  else if mcap = "Small Cap" then 1 else 0

/-- scorer.py `outrunner_conviction`, volume block. -/
def convVolPts (vol : ℚ) : ℤ :=
  if vol ≥ 2.0 then 3 else if vol ≥ 1.5 then 2 else if vol ≥ 1.0 then 1 else 0

/-- scorer.py `outrunner_conviction`, delivery block. -/
def convDlvPts (dlv : ℚ) : ℤ :=
  if dlv ≥ 2.0 then 3 else if dlv ≥ 1.5 then 2 else if dlv ≥ 1.0 then 1 else 0

/-- scorer.py `outrunner_conviction`, previous-day momentum block. -/
def convMomPts (chg : ℚ) : ℤ :=
  if chg ≥ 3.0 then 3 else if chg ≥ 1.0 then 2 else if chg ≥ 0 then 1 else 0

/-- scorer.py `outrunner_conviction`, PCR-signal block (note the `1` default
for a missing `pcr`, unlike `base_score`). -/
def convPcrPts (pcr pcr_chg : ℚ) : ℤ :=
  if pcr < 0.7 ∧ pcr_chg < 0 then 2 else if pcr < 0.9 then 1 else 0

/-- scorer.py `outrunner_conviction`, OI-buildup block. -/
def convOiPts (oi : ℚ) : ℤ :=
  if oi ≥ 5 then 1 else 0

/-- Result of `outrunner_conviction`: the conviction total, the constant
`max_conviction = 19`, and the per-factor points recorded in `reasons`
(free-text labels dropped, see module docstring). -/
structure ConvictionResult where
  conviction : ℤ
  max_conviction : ℤ
  reasons : List (String × ℤ)
  deriving DecidableEq, Repr

/-- scorer.py `outrunner_conviction`: every factor block adds its points to
`conv` and records the same points under its factor name in `reasons`. -/
def outrunner_conviction (s : Snapshot) : ConvictionResult :=
  let trendPts := convTrendPts (s.oi_trend.getD "")
  let mcapPts := convMcapPts (s.mcap_category.getD "")
  let volPts := convVolPts (s.volume_times.getD 0)
  let dlvPts := convDlvPts (s.delivery_times.getD 0)
  let momPts := convMomPts (s.change_pct.getD 0)
  let pcrPts := convPcrPts (s.pcr.getD 1) (s.pcr_change_1d.getD 0)
  let oiPts := convOiPts (s.oi_change_pct.getD 0)
  { conviction := trendPts + mcapPts + volPts + dlvPts + momPts + pcrPts + oiPts
    max_conviction := 19
    reasons := [("OI Trend", trendPts), ("MCap", mcapPts), ("Volume", volPts),
                ("Delivery", dlvPts), ("Momentum", momPts), ("PCR Signal", pcrPts),
                ("OI Buildup", oiPts)] }

section ScorerLemmas

private lemma chgAdj_split (v : ℤ) (c1 c2 c3 : Prop)
    [Decidable c1] [Decidable c2] [Decidable c3] :
    (if c1 then v - 3 else if c2 then v + 3 else if c3 then v + 2 else v)
      = v + (if c1 then -3 else if c2 then 3 else if c3 then 2 else 0) := by
  split_ifs <;> ring

private lemma bonus_split (a : ℤ) (c : Prop) [Decidable c] :
    (if c then a + 2 else a) = a + (if c then 2 else 0) := by
  split_ifs <;> ring

lemma convTrendPts_bounds (t : String) : 0 ≤ convTrendPts t ∧ convTrendPts t ≤ 4 := by
  unfold convTrendPts; split_ifs <;> omega

lemma convMcapPts_bounds (m : String) : 0 ≤ convMcapPts m ∧ convMcapPts m ≤ 3 := by
  unfold convMcapPts; split_ifs <;> omega

lemma convVolPts_bounds (v : ℚ) : 0 ≤ convVolPts v ∧ convVolPts v ≤ 3 := by
  unfold convVolPts; split_ifs <;> omega

lemma convDlvPts_bounds (d : ℚ) : 0 ≤ convDlvPts d ∧ convDlvPts d ≤ 3 := by
  unfold convDlvPts; split_ifs <;> omega

lemma convMomPts_bounds (c : ℚ) : 0 ≤ convMomPts c ∧ convMomPts c ≤ 3 := by
  unfold convMomPts; split_ifs <;> omega

lemma convPcrPts_bounds (p pc : ℚ) : 0 ≤ convPcrPts p pc ∧ convPcrPts p pc ≤ 2 := by
  unfold convPcrPts; split_ifs <;> omega

lemma convOiPts_bounds (o : ℚ) : 0 ≤ convOiPts o ∧ convOiPts o ≤ 1 := by
  unfold convOiPts; split_ifs <;> omega

end ScorerLemmas

/-- C1: for every snapshot, the values of `score_breakdown` (factors OI Trend,
PCR, OI Change, Volume, Delivery, Momentum, Bonus) sum to `base_score`. -/
theorem score_breakdown_sums_to_base_score (s : Snapshot) :
    ((score_breakdown s).map Prod.snd).sum = base_score s := by
  simp only [score_breakdown, base_score, List.map_cons, List.map_nil,
    List.sum_cons, List.sum_nil]
  rw [chgAdj_split, bonus_split]
  ring

/-- C2: for every snapshot, `outrunner_conviction` returns a conviction in
`[0, 19]`, and the per-factor points recorded in `reasons` sum to the
conviction. -/
theorem outrunner_conviction_bounds_and_sum (s : Snapshot) :
    0 ≤ (outrunner_conviction s).conviction ∧
    (outrunner_conviction s).conviction ≤ 19 ∧
    (((outrunner_conviction s).reasons.map Prod.snd).sum
       = (outrunner_conviction s).conviction) := by
  obtain ⟨h1a, h1b⟩ := convTrendPts_bounds (s.oi_trend.getD "")
  obtain ⟨h2a, h2b⟩ := convMcapPts_bounds (s.mcap_category.getD "")
  obtain ⟨h3a, h3b⟩ := convVolPts_bounds (s.volume_times.getD 0)
  obtain ⟨h4a, h4b⟩ := convDlvPts_bounds (s.delivery_times.getD 0)
  obtain ⟨h5a, h5b⟩ := convMomPts_bounds (s.change_pct.getD 0)
  obtain ⟨h6a, h6b⟩ := convPcrPts_bounds (s.pcr.getD 1) (s.pcr_change_1d.getD 0)
  obtain ⟨h7a, h7b⟩ := convOiPts_bounds (s.oi_change_pct.getD 0)
  refine ⟨?_, ?_, ?_⟩
  · simp only [outrunner_conviction]; omega
  · simp only [outrunner_conviction]; omega
  · simp only [outrunner_conviction, List.map_cons, List.map_nil,
      List.sum_cons, List.sum_nil]
    ring

/-- The snapshot of spec example scenario A / claim C3. -/
def scenarioA : Snapshot :=
  { oi_trend := some "ShortCover", pcr := some 0.6, pcr_change_1d := some (-0.15),
    oi_change_pct := some 12, volume_times := some 2.2, delivery_times := some 2.1,
    change_pct := some 3.5 }

/-- C3: the scenario-A snapshot (ShortCover, pcr 0.6, pcr Δ −0.15, OI Δ 12 %,
volume 2.2×, delivery 2.1×, change 3.5 %) scores exactly 45. -/
theorem base_score_scenarioA : base_score scenarioA = 45 := by
  norm_num [base_score, scenarioA, OI_SCORES]
  decide

/-! ### Python dict / list primitives -/

/-- A Python dict keyed by strings, as an insertion-ordered association list. -/
abbrev Dict (α : Type) := List (String × α)

/-- Python `d.get(k, default)`. -/
def dget (d : Dict α) (k : String) (dflt : α) : α := (List.lookup k d).getD dflt

/-- The key list of a dict; Python dicts never hold a key twice, which the
association-list model states as `(dkeys d).Nodup`. -/
def dkeys (d : Dict α) : List String := d.map Prod.fst

/-- Python `d[k] = f(d[k])` for a `defaultdict` with default `dflt`:
update in place if present, else append at the end (insertion order). -/
def dupsert (d : Dict α) (k : String) (f : α → α) (dflt : α) : Dict α :=
  match d with
  | [] => [(k, f dflt)]
  | (k1, v1) :: rest =>
      if k1 = k then (k1, f v1) :: rest else (k1, v1) :: dupsert rest k f dflt

/-- Python `d[k] = v`: overwrite in place if present, else append. -/
def dset (d : Dict α) (k : String) (v : α) : Dict α :=
  match d with
  | [] => [(k, v)]
  | (k1, v1) :: rest =>
      if k1 = k then (k1, v) :: rest else (k1, v1) :: dset rest k v

/-- Insert `a` before the first element `b` with `le a b`; helper of the
stable sort below. -/
def insertLe (le : α → α → Bool) (a : α) : List α → List α
  | [] => [a]
  | b :: bs => if le a b then a :: b :: bs else b :: insertLe le a bs

/-- Stable insertion sort.  Python's `list.sort(key=k, reverse=True)` (a
stable sort) is `pySortBy (fun x y => decide (k y ≤ k x))`: an earlier element
stays in front of a later one exactly when its key is ≥. -/
def pySortBy (le : α → α → Bool) : List α → List α
  | [] => []
  | a :: rest => insertLe le a (pySortBy le rest)

/-- Lexicographic ≤ on pairs, as Python compares 2-tuples. -/
def lexLe2 (x y : ℤ × ℤ) : Bool :=
  decide (x.1 < y.1) || (decide (x.1 = y.1) && decide (x.2 ≤ y.2))

/-- Lexicographic ≤ on triples, as Python compares 3-tuples. -/
def lexLe3 (x y : ℤ × ℤ × ℤ) : Bool :=
  decide (x.1 < y.1) || (decide (x.1 = y.1) && lexLe2 x.2 y.2)

/-- Lexicographic ≤ on rational pairs, as Python compares 2-tuples. -/
def lexLe2q (x y : ℚ × ℚ) : Bool :=
  decide (x.1 < y.1) || (decide (x.1 = y.1) && decide (x.2 ≤ y.2))

/-- Python round-half-to-even of a rational to an integer. -/
def pyRoundInt (q : ℚ) : ℤ :=
  let f := ⌊q⌋
  let r := q - f
  if r < 1/2 then f
  else if 1/2 < r then f + 1
  else if f % 2 = 0 then f else f + 1

/-- Python `round(x, n)`: round half to even at the n-th decimal place.  The
source rounds IEEE doubles; the model rounds the exact rational, which is the
real-number reading of the same operation. -/
def pyRound (n : ℕ) (q : ℚ) : ℚ := (pyRoundInt (q * 10 ^ n) : ℚ) / 10 ^ n

/-- Python `int(x)` on a float: truncation toward zero. -/
def truncInt (q : ℚ) : ℤ := q.num / (q.den : ℤ)

section DictLemmas

lemma mem_insertLe {le : α → α → Bool} {a b : α} {l : List α} :
    b ∈ insertLe le a l ↔ b = a ∨ b ∈ l := by
  induction l with
  | nil => simp [insertLe]
  | cons c cs ih =>
      simp only [insertLe]
      split_ifs with h
      · simp
      · simp only [List.mem_cons, ih]
        tauto

lemma mem_pySortBy {le : α → α → Bool} {a : α} {l : List α} :
    a ∈ pySortBy le l ↔ a ∈ l := by
  induction l with
  | nil => simp [pySortBy]
  | cons c cs ih => simp [pySortBy, mem_insertLe, ih]

lemma lookup_eq_some_of_mem_nodup {l : Dict α} {k : String} {v : α}
    (hnd : (dkeys l).Nodup) (hmem : (k, v) ∈ l) : List.lookup k l = some v := by
  induction l with
  | nil => cases hmem
  | cons e rest ih =>
      rcases e with ⟨k1, v1⟩
      have hnd' : k1 ∉ dkeys rest ∧ (dkeys rest).Nodup := by
        simpa [dkeys] using hnd
      rcases List.mem_cons.mp hmem with h | h
      · rw [Prod.mk.injEq] at h
        rcases h with ⟨rfl, rfl⟩
        simp [List.lookup]
      · have hk : k ≠ k1 := by
          intro hq
          subst hq
          exact hnd'.1 (by simpa [dkeys] using List.mem_map_of_mem Prod.fst h)
        have hbeq : (k == k1) = false := beq_eq_false_iff_ne.mpr hk
        simp only [List.lookup, hbeq]
        exact ih hnd'.2 h

lemma mem_of_lookup_eq_some {l : Dict α} {k : String} {v : α}
    (h : List.lookup k l = some v) : (k, v) ∈ l := by
  induction l with
  | nil => simp [List.lookup] at h
  | cons e rest ih =>
      rcases e with ⟨k1, v1⟩
      by_cases hk : k = k1
      · subst hk
        simp only [List.lookup, beq_self_eq_true] at h
        cases h
        exact List.mem_cons_self _ _
      · have hbeq : (k == k1) = false := beq_eq_false_iff_ne.mpr hk
        simp only [List.lookup, hbeq] at h
        exact List.mem_cons_of_mem _ (ih h)

end DictLemmas

/-! ### signals.py -/

/-- Per-date, per-symbol snapshot store passed to every detector. -/
abbrev SigData := Dict (Dict Snapshot)

/-- signals.py `_pct_chg` (the leading underscore is dropped): the guard only
tests `prev is None or prev == 0`; `curr or 0` maps a missing `curr` to 0. -/
def pct_chg (curr prev : Option ℚ) : Option ℚ :=
  match prev with
  | none => none
  | some p =>
      if p = 0 then none
      else some (pyRound 2 ((curr.getD 0 - p) / p * 100))

/-- signals.py `enrich_oi_change_pct`: copy the snapshot and add
`call_oi_change_pct` / `put_oi_change_pct` (today vs yesterday), `none` when
there is no previous-day snapshot. -/
def enrich_oi_change_pct (stock : Snapshot) (prev_stock : Option Snapshot) : Snapshot :=
  match prev_stock with
  | some p =>
      let prev_call := p.cumulative_call_oi.getD 0
      let prev_put := p.cumulative_put_oi.getD 0
      let curr_call := stock.cumulative_call_oi.getD 0
      let curr_put := stock.cumulative_put_oi.getD 0
      { stock with call_oi_change_pct := pct_chg (some curr_call) (some prev_call)
                   put_oi_change_pct := pct_chg (some curr_put) (some prev_put) }
  | none =>
      { stock with call_oi_change_pct := none, put_oi_change_pct := none }

/-- One record emitted by `detect_trend_flips`. -/
structure Flip where
  symbol : String
  prev_trend : String
  new_trend : String
  close : ℚ
  change_pct : ℚ
  pcr : ℚ
  volume_times : ℚ
  delivery_times : ℚ
  sector : String
  mcap_category : String
  score : ℤ
  conviction : ℤ
  deriving DecidableEq, Repr

/-- signals.py `detect_trend_flips`: stocks whose OI trend flipped
bearish→bullish over the last two dates, sorted by conviction descending. -/
def detect_trend_flips (data : SigData) (dates : List String) : List Flip :=
  if dates.length < 2 then [] else
  let today := dates.getD (dates.length - 1) ""
  let yesterday := dates.getD (dates.length - 2) ""
  let flips := (dget data today []).filterMap fun e =>
    match List.lookup e.1 (dget data yesterday []) with
    | none => none
    | some s_yest =>
        let t_today := e.2.oi_trend.getD ""
        let t_yest := s_yest.oi_trend.getD ""
        if t_yest ∈ BEARISH_TRENDS ∧ t_today ∈ BULLISH then
          some { symbol := e.1, prev_trend := t_yest, new_trend := t_today,
                 close := e.2.close.getD 0, change_pct := e.2.change_pct.getD 0,
                 pcr := e.2.pcr.getD 0, volume_times := e.2.volume_times.getD 0,
                 delivery_times := e.2.delivery_times.getD 0,
                 sector := e.2.sector.getD "", mcap_category := e.2.mcap_category.getD "",
                 score := base_score e.2,
                 conviction := (outrunner_conviction e.2).conviction }
        else none
  pySortBy (fun x y => decide (y.conviction ≤ x.conviction)) flips

/-- One entry of a `pcr_extremes` bucket. -/
structure PcrEntry where
  symbol : String
  pcr : ℚ
  pcr_change_1d : ℚ
  close : ℚ
  change_pct : ℚ
  oi_trend : String
  sector : String
  mcap_category : String
  deriving DecidableEq, Repr

/-- Result of `pcr_extremes`. -/
structure PcrExtremes where
  low_pcr : List PcrEntry
  high_pcr : List PcrEntry
  deriving DecidableEq, Repr

/-- The entry dict `pcr_extremes` builds for each stock (note the `1` default
for a missing `pcr`). -/
def pcrEntryOf (e : String × Snapshot) : PcrEntry :=
  { symbol := e.1, pcr := e.2.pcr.getD 1,
    pcr_change_1d := e.2.pcr_change_1d.getD 0,
    close := e.2.close.getD 0, change_pct := e.2.change_pct.getD 0,
    oi_trend := e.2.oi_trend.getD "", sector := e.2.sector.getD "",
    mcap_category := e.2.mcap_category.getD "" }

/-- signals.py `pcr_extremes` (defaults `low_thresh=0.5`, `high_thresh=1.5`
are passed explicitly by callers in this model): low bucket `pcr ≤ low`,
else high bucket `pcr ≥ high`; low sorted ascending, high descending. -/
def pcr_extremes (data : SigData) (date : String) (low_thresh high_thresh : ℚ) :
    PcrExtremes :=
  let items := dget data date []
  let low := items.filterMap fun e =>
    if e.2.pcr.getD 1 ≤ low_thresh then some (pcrEntryOf e) else none
  let high := items.filterMap fun e =>
    if e.2.pcr.getD 1 ≤ low_thresh then none
    else if e.2.pcr.getD 1 ≥ high_thresh then some (pcrEntryOf e) else none
  { low_pcr := pySortBy (fun x y => decide (x.pcr ≤ y.pcr)) low
    high_pcr := pySortBy (fun x y => decide (y.pcr ≤ x.pcr)) high }

/-- One record emitted by `delivery_spikes`. -/
structure Spike where
  symbol : String
  delivery_times : ℚ
  volume_times : ℚ
  close : ℚ
  change_pct : ℚ
  oi_trend : String
  pcr : ℚ
  sector : String
  mcap_category : String
  score : ℤ
  deriving DecidableEq, Repr

/-- signals.py `delivery_spikes`: stocks with `delivery_times ≥ thresh`,
sorted by delivery multiple descending. -/
def delivery_spikes (data : SigData) (date : String) (thresh : ℚ) : List Spike :=
  let spikes := (dget data date []).filterMap fun e =>
    let dlv := e.2.delivery_times.getD 0
    if dlv ≥ thresh then
      some { symbol := e.1, delivery_times := dlv,
             volume_times := e.2.volume_times.getD 0,
             close := e.2.close.getD 0, change_pct := e.2.change_pct.getD 0,
             oi_trend := e.2.oi_trend.getD "", pcr := e.2.pcr.getD 0,
             sector := e.2.sector.getD "", mcap_category := e.2.mcap_category.getD "",
             score := base_score e.2 }
    else none
  pySortBy (fun x y => decide (y.delivery_times ≤ x.delivery_times)) spikes

/-- Python list slice `l[-k:]`.  For `k = 0` Python's `l[-0:]` is `l[0:]`,
the whole list. -/
def sliceLast (l : List α) (k : ℕ) : List α :=
  if k = 0 then l else l.drop (l.length - k)

/-- One record emitted by `score_streaks`. -/
structure Streak where
  symbol : String
  streak_days : ℕ
  score : ℤ
  conviction : ℤ
  close : ℚ
  change_pct : ℚ
  oi_trend : String
  pcr : ℚ
  volume_times : ℚ
  delivery_times : ℚ
  sector : String
  mcap_category : String
  deriving DecidableEq, Repr, Inhabited

/-- The body of `score_streaks`'s inner loop: on a qualifying (symbol,
snapshot) pair, bump `sym_days[sym]` (a `defaultdict(int)`) and overwrite
`sym_latest[sym]`; the state is the pair of those two dicts. -/
def streakStep (lo hi : ℤ) (st : Dict ℕ × Dict Snapshot) (e : String × Snapshot) :
    Dict ℕ × Dict Snapshot :=
  let sc := base_score e.2
  if lo ≤ sc ∧ sc ≤ hi then (dupsert st.1 e.1 (· + 1) 0, dset st.2 e.1 e.2) else st

/-- The `(sym_days, sym_latest)` pair after `score_streaks`'s two nested loops
over the recent dates (both dicts start empty). -/
def streakState (data : SigData) (recent : List String) (lo hi : ℤ) :
    Dict ℕ × Dict Snapshot :=
  recent.foldl (fun acc d => (dget data d []).foldl (streakStep lo hi) acc) ([], [])

/-- signals.py `score_streaks` (defaults `min_days=3, lo=20, hi=34` passed
explicitly): symbols whose score was in `[lo, hi]` on at least `min_days` of
the last `min_days` dates, sorted by (streak days, conviction) descending. -/
def score_streaks (data : SigData) (dates : List String) (min_days : ℕ)
    (lo hi : ℤ) : List Streak :=
  if dates.length < min_days then [] else
  let recent := sliceLast dates min_days
  let st := streakState data recent lo hi
  let streaks := st.1.filterMap fun e =>
    if min_days ≤ e.2 then
      match List.lookup e.1 st.2 with
      | some s =>
          some { symbol := e.1, streak_days := e.2, score := base_score s,
                 conviction := (outrunner_conviction s).conviction,
                 close := s.close.getD 0, change_pct := s.change_pct.getD 0,
                 oi_trend := s.oi_trend.getD "", pcr := s.pcr.getD 0,
                 volume_times := s.volume_times.getD 0,
                 delivery_times := s.delivery_times.getD 0,
                 sector := s.sector.getD "", mcap_category := s.mcap_category.getD "" }
      | none => none   -- unreachable: a counted symbol always has a latest snapshot
    else none
  pySortBy (fun x y =>
    lexLe2 ((y.streak_days : ℤ), y.conviction) ((x.streak_days : ℤ), x.conviction)) streaks

/-- signals.py `call_put_divergence`: `some "bullish"`, `some "bearish"` or
`none`, with the `prev_call <= 0 or prev_put <= 0` division guard. -/
def call_put_divergence (stock : Snapshot) (prev_stock : Option Snapshot) :
    Option String :=
  match prev_stock with
  | none => none
  | some p =>
      let prev_call := p.cumulative_call_oi.getD 0
      let prev_put := p.cumulative_put_oi.getD 0
      let curr_call := stock.cumulative_call_oi.getD 0
      let curr_put := stock.cumulative_put_oi.getD 0
      if prev_call ≤ 0 ∨ prev_put ≤ 0 then none
      else
        let call_chg := (curr_call - prev_call) / prev_call
        let put_chg := (curr_put - prev_put) / prev_put
        if call_chg > 0.02 ∧ put_chg < -0.02 then some "bullish"
        else if call_chg < -0.02 ∧ put_chg > 0.02 then some "bearish"
        else none

/-- signals.py `signal_convergence`: `{symbol: [signals]}` for the view date;
only symbols with at least one signal get an entry. -/
def signal_convergence (data : SigData) (dates : List String) (view_date : String) :
    Dict (List String) :=
  if dates.isEmpty ∨ (List.lookup view_date data).isNone then [] else
  let flips := (detect_trend_flips data dates).map Flip.symbol
  let ext := pcr_extremes data view_date 0.5 1.5
  let pcr_syms := (ext.low_pcr ++ ext.high_pcr).map PcrEntry.symbol
  let spikes := (delivery_spikes data view_date 2.0).map Spike.symbol
  let streaks := (score_streaks data dates 3 20 34).map Streak.symbol
  let prev_data := if dates.length ≥ 2 then dget data (dates.getD (dates.length - 2) "") [] else []
  (dget data view_date []).filterMap fun e =>
    let sigs := (if e.1 ∈ flips then ["Flip"] else []) ++
                (if e.1 ∈ pcr_syms then ["PCR"] else []) ++
                (if e.1 ∈ spikes then ["Dlv"] else []) ++
                (if e.1 ∈ streaks then ["Streak"] else []) ++
                (if call_put_divergence e.2 (List.lookup e.1 prev_data) = some "bullish"
                 then ["CallPut"] else [])
    if sigs.isEmpty then none else some (e.1, sigs)

/-- C5: with at least two dates and a symbol present on both of the last two
dates, the symbol appears in `detect_trend_flips` exactly when its prior-day
OI trend is in {NewShort, LongCover} and its last-day OI trend is in
{NewLong, ShortCover}. -/
theorem detect_trend_flips_iff (data : SigData) (dates : List String)
    (sym : String) (s_t s_y : Snapshot)
    (hlen : 2 ≤ dates.length)
    (hnd : (dkeys (dget data (dates.getD (dates.length - 1) "") [])).Nodup)
    (ht : List.lookup sym (dget data (dates.getD (dates.length - 1) "") []) = some s_t)
    (hy : List.lookup sym (dget data (dates.getD (dates.length - 2) "") []) = some s_y) :
    (sym ∈ (detect_trend_flips data dates).map Flip.symbol) ↔
      (s_y.oi_trend.getD "" ∈ BEARISH_TRENDS ∧ s_t.oi_trend.getD "" ∈ BULLISH) := by
  have hguard : ¬ dates.length < 2 := by omega
  simp only [detect_trend_flips, if_neg hguard, List.mem_map, mem_pySortBy,
    List.mem_filterMap]
  constructor
  · rintro ⟨fl, ⟨⟨k, s⟩, he, hfe⟩, hsym⟩
    rcases hl : List.lookup (k, s).1 (dget data (dates.getD (dates.length - 2) "") [])
        with _ | sy
    · rw [hl] at hfe
      simp at hfe
    · rw [hl] at hfe
      simp only at hfe
      split_ifs at hfe with hcond
      · cases hfe
        simp only at hsym
        subst hsym
        have hks := lookup_eq_some_of_mem_nodup hnd he
        rw [ht] at hks
        cases hks
        have hl2 : List.lookup k (dget data (dates.getD (dates.length - 2) "") [])
            = some sy := hl
        rw [hy] at hl2
        cases hl2
        exact hcond
  · rintro ⟨hb, hbl⟩
    refine ⟨{ symbol := sym, prev_trend := s_y.oi_trend.getD "",
              new_trend := s_t.oi_trend.getD "",
              close := s_t.close.getD 0, change_pct := s_t.change_pct.getD 0,
              pcr := s_t.pcr.getD 0, volume_times := s_t.volume_times.getD 0,
              delivery_times := s_t.delivery_times.getD 0,
              sector := s_t.sector.getD "", mcap_category := s_t.mcap_category.getD "",
              score := base_score s_t,
              conviction := (outrunner_conviction s_t).conviction },
            ⟨⟨sym, s_t⟩, mem_of_lookup_eq_some ht, ?_⟩, rfl⟩
    simp only [hy]
    rw [if_pos ⟨hb, hbl⟩]

/-- Yesterday's snapshot in the concrete flip scenario (NewShort). -/
def c5snapYest : Snapshot := { oi_trend := some "NewShort" }

/-- Today's snapshot in the concrete flip scenario (NewLong). -/
def c5snapToday : Snapshot := { oi_trend := some "NewLong", close := some 100 }

/-- Two-day data set for the flip witness. -/
def c5data : SigData :=
  [("2024-01-01", [("X", c5snapYest)]), ("2024-01-02", [("X", c5snapToday)])]

/-- Witness for C5 at a concrete two-day data set (NewShort → NewLong). -/
theorem detect_trend_flips_iff_witness :
    ("X" ∈ (detect_trend_flips c5data ["2024-01-01", "2024-01-02"]).map Flip.symbol) ↔
      ((c5snapYest.oi_trend.getD "" ∈ BEARISH_TRENDS) ∧
       (c5snapToday.oi_trend.getD "" ∈ BULLISH)) :=
  detect_trend_flips_iff c5data ["2024-01-01", "2024-01-02"] "X" c5snapToday c5snapYest
    (by decide) (by decide) (by rfl) (by rfl)

/-- C9: evaluating `pct_chg` (source `_pct_chg`) at a negative denominator.
The guard only catches `prev is None or prev == 0`, so `prev = -10` slips
through and yields `-100.0` instead of the `None` promised by the function's
own docstring ("if prev > 0, else None") and by the spec; the same value
surfaces through `enrich_oi_change_pct`. -/
theorem pct_chg_negative_denominator :
    pct_chg (some 0) (some (-10)) = some (-100) ∧
    (enrich_oi_change_pct { }
        (some { cumulative_call_oi := some (-10) })).call_oi_change_pct
      = some (-100) := by
  with_unfolding_all decide

/-! ### Counting machinery for `score_streaks` -/

/-- `sym_days.get(k, 0)` — the counter value a `defaultdict(int)` reports. -/
def countOf (m : Dict ℕ) (k : String) : ℕ := (List.lookup k m).getD 0

/-- One (symbol, snapshot) pair qualifies for symbol `sym` on a date when its
key is `sym` and its score is in `[lo, hi]`. -/
def streakHit (lo hi : ℤ) (sym : String) (e : String × Snapshot) : Bool :=
  decide (e.1 = sym) && decide (lo ≤ base_score e.2) && decide (base_score e.2 ≤ hi)

lemma countOf_bump (m : Dict ℕ) (k k2 : String) :
    countOf (dupsert m k (· + 1) 0) k2 = countOf m k2 + (if k = k2 then 1 else 0) := by
  induction m with
  | nil =>
      by_cases h : k = k2
      · subst h
        simp [countOf, dupsert, List.lookup]
      · simp [countOf, dupsert, List.lookup, beq_eq_false_iff_ne.mpr (Ne.symm h), h]
  | cons e rest ih =>
      rcases e with ⟨k1, v1⟩
      by_cases h1 : k1 = k
      · subst h1
        by_cases h2 : k1 = k2
        · subst h2
          simp [countOf, dupsert, List.lookup]
        · simp [countOf, dupsert, List.lookup, beq_eq_false_iff_ne.mpr (Ne.symm h2), h2]
      · by_cases h2 : k1 = k2
        · subst h2
          simp only [countOf, dupsert, if_neg h1, List.lookup, beq_self_eq_true]
          simp [if_neg (show ¬ k = k1 from fun hq => h1 hq.symm)]
        · have hbeq : (k2 == k1) = false := beq_eq_false_iff_ne.mpr (Ne.symm h2)
          simp only [countOf, dupsert, if_neg h1, List.lookup, hbeq]
          exact ih

lemma countOf_streak_foldl (lo hi : ℤ) (sym : String)
    (entries : List (String × Snapshot)) (st : Dict ℕ × Dict Snapshot) :
    countOf (entries.foldl (streakStep lo hi) st).1 sym
      = countOf st.1 sym + entries.countP (streakHit lo hi sym) := by
  induction entries generalizing st with
  | nil => simp
  | cons e rest ih =>
      rw [List.foldl_cons, ih, List.countP_cons]
      rcases e with ⟨k, s⟩
      by_cases hr : lo ≤ base_score s ∧ base_score s ≤ hi
      · by_cases hk : k = sym
        · have hhit : streakHit lo hi sym (k, s) = true := by
            simp [streakHit, hk, hr.1, hr.2]
          rw [hhit]
          simp only [streakStep, if_pos hr, countOf_bump, if_pos hk]
          simp
          omega
        · have hhit : streakHit lo hi sym (k, s) = false := by
            simp [streakHit, hk]
          rw [hhit]
          simp only [streakStep, if_pos hr, countOf_bump, if_neg hk]
          simp
      · have hhit : streakHit lo hi sym (k, s) = false := by
          rcases not_and_or.mp hr with h | h <;> simp [streakHit, h]
        rw [hhit]
        simp only [streakStep, if_neg hr]
        simp

lemma countOf_streakState (data : SigData) (lo hi : ℤ) (sym : String)
    (ds : List String) :
    countOf (streakState data ds lo hi).1 sym
      = ((ds.map (fun d => (dget data d []).countP (streakHit lo hi sym))).sum) := by
  suffices h : ∀ (st : Dict ℕ × Dict Snapshot),
      countOf (ds.foldl (fun acc d => (dget data d []).foldl (streakStep lo hi) acc) st).1 sym
        = countOf st.1 sym
          + ((ds.map (fun d => (dget data d []).countP (streakHit lo hi sym))).sum) by
    have := h ([], [])
    simpa [streakState, countOf, List.lookup] using this
  induction ds with
  | nil => intro st; simp
  | cons d rest ih =>
      intro st
      rw [List.foldl_cons, ih, countOf_streak_foldl, List.map_cons, List.sum_cons]
      omega

lemma dupsert_cons_eq {rest : Dict α} {k1 : String} {v1 : α} {f : α → α} {dflt : α} :
    dupsert ((k1, v1) :: rest) k1 f dflt = (k1, f v1) :: rest := by
  simp [dupsert]

lemma dupsert_cons_ne {rest : Dict α} {k1 k : String} {v1 : α} {f : α → α} {dflt : α}
    (h : k1 ≠ k) :
    dupsert ((k1, v1) :: rest) k f dflt = (k1, v1) :: dupsert rest k f dflt := by
  simp [dupsert, h]

lemma mem_dkeys_dupsert {m : Dict α} {k x : String} {f : α → α} {dflt : α} :
    x ∈ dkeys (dupsert m k f dflt) ↔ x ∈ dkeys m ∨ x = k := by
  induction m with
  | nil => simp [dupsert, dkeys]
  | cons e rest ih =>
      rcases e with ⟨k1, v1⟩
      by_cases h1 : k1 = k
      · subst h1
        rw [dupsert_cons_eq]
        simp only [dkeys, List.map_cons, List.mem_cons]
        tauto
      · rw [dupsert_cons_ne h1]
        simp only [dkeys, List.map_cons, List.mem_cons] at ih ⊢
        rw [ih]
        tauto

lemma nodup_dkeys_dupsert {m : Dict α} {k : String} {f : α → α} {dflt : α}
    (h : (dkeys m).Nodup) : (dkeys (dupsert m k f dflt)).Nodup := by
  induction m with
  | nil => simp [dupsert, dkeys]
  | cons e rest ih =>
      rcases e with ⟨k1, v1⟩
      simp only [dkeys, List.map_cons, List.nodup_cons] at h
      by_cases h1 : k1 = k
      · subst h1
        rw [dupsert_cons_eq]
        simp only [dkeys, List.map_cons, List.nodup_cons]
        exact h
      · rw [dupsert_cons_ne h1]
        simp only [dkeys, List.map_cons, List.nodup_cons]
        refine ⟨?_, ih h.2⟩
        intro hmem
        rcases mem_dkeys_dupsert.mp hmem with hm | hm
        · exact h.1 hm
        · exact h1 hm

lemma nodup_fst_streak_foldl (lo hi : ℤ) (entries : List (String × Snapshot))
    (st : Dict ℕ × Dict Snapshot) (h : (dkeys st.1).Nodup) :
    (dkeys (entries.foldl (streakStep lo hi) st).1).Nodup := by
  induction entries generalizing st with
  | nil => exact h
  | cons e rest ih =>
      rw [List.foldl_cons]
      refine ih _ ?_
      simp only [streakStep]
      split_ifs with hr
      · exact nodup_dkeys_dupsert h
      · exact h

lemma nodup_fst_streakState (data : SigData) (ds : List String) (lo hi : ℤ) :
    (dkeys (streakState data ds lo hi).1).Nodup := by
  suffices hgen : ∀ (st : Dict ℕ × Dict Snapshot), (dkeys st.1).Nodup →
      (dkeys (ds.foldl (fun acc d => (dget data d []).foldl (streakStep lo hi) acc) st).1).Nodup by
    exact hgen ([], []) (by simp [dkeys])
  induction ds with
  | nil => intro st h; exact h
  | cons d rest ih =>
      intro st h
      rw [List.foldl_cons]
      exact ih _ (nodup_fst_streak_foldl _ _ _ _ h)

lemma countP_streakHit_le_one {l : Dict Snapshot} (lo hi : ℤ) (sym : String)
    (hnd : (dkeys l).Nodup) : l.countP (streakHit lo hi sym) ≤ 1 := by
  induction l with
  | nil => simp
  | cons e rest ih =>
      rcases e with ⟨k, s⟩
      simp only [dkeys, List.map_cons, List.nodup_cons] at hnd
      rw [List.countP_cons]
      by_cases hk : k = sym
      · subst hk
        have hz : rest.countP (streakHit lo hi k) = 0 := by
          rw [List.countP_eq_zero]
          rintro ⟨k2, s2⟩ hmem hhit
          simp only [streakHit, Bool.and_eq_true, decide_eq_true_eq] at hhit
          apply hnd.1
          have hmm : k2 ∈ List.map Prod.fst rest := by
            simpa using List.mem_map_of_mem Prod.fst hmem
          rwa [hhit.1.1] at hmm
        rw [hz]
        split_ifs <;> omega
      · have hhit : streakHit lo hi sym (k, s) = false := by
          simp [streakHit, hk]
        rw [hhit]
        simpa using ih hnd.2

lemma countP_streakHit_eq_zero {l : Dict Snapshot} {lo hi : ℤ} {sym : String}
    {s : Snapshot} (hnd : (dkeys l).Nodup)
    (hlk : List.lookup sym l = some s)
    (hout : ¬ (lo ≤ base_score s ∧ base_score s ≤ hi)) :
    l.countP (streakHit lo hi sym) = 0 := by
  rw [List.countP_eq_zero]
  rintro ⟨k, v⟩ hmem hhit
  simp only [streakHit, Bool.and_eq_true, decide_eq_true_eq] at hhit
  obtain ⟨⟨hk, h1⟩, h2⟩ := hhit
  subst hk
  have hv := lookup_eq_some_of_mem_nodup hnd hmem
  rw [hlk] at hv
  cases hv
  exact hout ⟨h1, h2⟩

lemma sliceLast_length {l : List α} {k : ℕ} (hk : 1 ≤ k) (hlen : k ≤ l.length) :
    (sliceLast l k).length = k := by
  rw [sliceLast, if_neg (by omega), List.length_drop]
  omega

/-- C6: a symbol appearing in `score_streaks` was in the `[lo, hi]` band on
every one of the last `min_days` dates on which it appears: for any date `d`
in the recent window where the streak symbol has a snapshot, that snapshot's
`base_score` lies in `[lo, hi]`. -/
theorem score_streaks_in_range (data : SigData) (dates : List String)
    (min_days : ℕ) (lo hi : ℤ) (stk : Streak) (d : String) (s : Snapshot)
    (hmin : 1 ≤ min_days)
    (hkeys : ∀ d2 ∈ sliceLast dates min_days, (dkeys (dget data d2 [])).Nodup)
    (hmem : stk ∈ score_streaks data dates min_days lo hi)
    (hd : d ∈ sliceLast dates min_days)
    (hlk : List.lookup stk.symbol (dget data d []) = some s) :
    lo ≤ base_score s ∧ base_score s ≤ hi := by
  by_contra hout
  simp only [score_streaks] at hmem
  split_ifs at hmem with hglen
  · simp at hmem
  rw [mem_pySortBy, List.mem_filterMap] at hmem
  obtain ⟨⟨sym0, cnt⟩, hst, hg⟩ := hmem
  split_ifs at hg with hcnt
  · rcases hls : List.lookup (sym0, cnt).1
        (streakState data (sliceLast dates min_days) lo hi).2 with _ | slatest
    · rw [hls] at hg
      simp at hg
    · rw [hls] at hg
      simp only [Option.some.injEq] at hg
      have hsym : stk.symbol = sym0 := by
        rw [← hg]
      have hcount : countOf (streakState data (sliceLast dates min_days) lo hi).1 sym0
          = cnt := by
        have := lookup_eq_some_of_mem_nodup
          (nodup_fst_streakState data (sliceLast dates min_days) lo hi) hst
        simp [countOf, this]
      rw [countOf_streakState] at hcount
      obtain ⟨l1, l2, hsplit⟩ := List.append_of_mem hd
      rw [hsplit, List.map_append, List.map_cons, List.sum_append, List.sum_cons] at hcount
      have hzero : (dget data d []).countP (streakHit lo hi sym0) = 0 := by
        refine countP_streakHit_eq_zero (hkeys d hd) ?_ hout
        rw [← hsym]
        exact hlk
      rw [hzero] at hcount
      have hb1 : (l1.map (fun d2 => (dget data d2 []).countP (streakHit lo hi sym0))).sum
          ≤ l1.length := by
        calc (l1.map (fun d2 => (dget data d2 []).countP (streakHit lo hi sym0))).sum
            ≤ (l1.map (fun d2 => (dget data d2 []).countP (streakHit lo hi sym0))).length • 1 :=
              List.sum_le_card_nsmul _ 1 (by
                intro x hx
                simp only [List.mem_map] at hx
                obtain ⟨d2, hd2, hval⟩ := hx
                rw [← hval]
                refine countP_streakHit_le_one lo hi sym0 (hkeys d2 ?_)
                rw [hsplit]
                exact List.mem_append_left _ hd2)
          _ = l1.length := by simp
      have hb2 : (l2.map (fun d2 => (dget data d2 []).countP (streakHit lo hi sym0))).sum
          ≤ l2.length := by
        calc (l2.map (fun d2 => (dget data d2 []).countP (streakHit lo hi sym0))).sum
            ≤ (l2.map (fun d2 => (dget data d2 []).countP (streakHit lo hi sym0))).length • 1 :=
              List.sum_le_card_nsmul _ 1 (by
                intro x hx
                simp only [List.mem_map] at hx
                obtain ⟨d2, hd2, hval⟩ := hx
                rw [← hval]
                refine countP_streakHit_le_one lo hi sym0 (hkeys d2 ?_)
                rw [hsplit]
                exact List.mem_append_right _ (List.mem_cons_of_mem _ hd2))
          _ = l2.length := by simp
      have hslice : (sliceLast dates min_days).length = min_days :=
        sliceLast_length hmin (by omega)
      have hlensplit : l1.length + 1 + l2.length = min_days := by
        rw [← hslice, hsplit]
        simp [List.length_append]
        omega
      omega

/-- A snapshot scoring 21 (inside the default sweet spot [20, 34]). -/
def c6snap : Snapshot :=
  { oi_trend := some "NewLong", pcr := some 0.6, oi_change_pct := some 12,
    volume_times := some 1, close := some 50 }

/-- Three-day data set where symbol X is in the sweet spot on every day. -/
def c6data : SigData :=
  [("2024-01-01", [("X", c6snap)]), ("2024-01-02", [("X", c6snap)]),
   ("2024-01-03", [("X", c6snap)])]

/-- The streak record `score_streaks` produces for the three-day data set. -/
def c6stk : Streak := (score_streaks c6data ["2024-01-01", "2024-01-02", "2024-01-03"] 3 20 34).headD default

/-- Witness for C6 at the concrete three-day data set. -/
theorem score_streaks_in_range_witness :
    (20 : ℤ) ≤ base_score c6snap ∧ base_score c6snap ≤ 34 :=
  score_streaks_in_range c6data ["2024-01-01", "2024-01-02", "2024-01-03"] 3 20 34
    c6stk "2024-01-03" c6snap (by decide) (by with_unfolding_all decide)
    (by with_unfolding_all decide) (by with_unfolding_all decide)
    (by with_unfolding_all decide)

/-! ### Sector rotation (signals.py) -/

/-- The per-sector accumulator `_sector_stats` builds in its first loop. -/
structure SectorAcc where
  count : ℕ
  bull : ℕ
  chg_sum : ℚ
  pcr_sum : ℚ
  vol_sum : ℚ
  dlv_sum : ℚ
  oi_chg_sum : ℚ
  call_oi_sum : ℚ
  put_oi_sum : ℚ
  deriving DecidableEq, Repr

def emptySectorAcc : SectorAcc := ⟨0, 0, 0, 0, 0, 0, 0, 0, 0⟩

/-- One stock's contribution to its sector accumulator. -/
def sectorAccAdd (a : SectorAcc) (s : Snapshot) : SectorAcc :=
  { count := a.count + 1
    bull := a.bull + (if s.oi_trend.getD "" ∈ BULLISH then 1 else 0)
    chg_sum := a.chg_sum + s.change_pct.getD 0
    pcr_sum := a.pcr_sum + s.pcr.getD 0
    vol_sum := a.vol_sum + s.volume_times.getD 0
    dlv_sum := a.dlv_sum + s.delivery_times.getD 0
    oi_chg_sum := a.oi_chg_sum + s.oi_change_pct.getD 0
    call_oi_sum := a.call_oi_sum + s.cumulative_call_oi.getD 0
    put_oi_sum := a.put_oi_sum + s.cumulative_put_oi.getD 0 }

/-- The per-sector averages `_sector_stats` returns. -/
structure SectorStats where
  count : ℕ
  bull_pct : ℚ
  avg_chg : ℚ
  avg_pcr : ℚ
  avg_vol : ℚ
  avg_dlv : ℚ
  avg_oi_chg : ℚ
  call_oi_sum : ℚ
  put_oi_sum : ℚ
  deriving DecidableEq, Repr

/-- signals.py `sector_rotation._sector_stats`. -/
def sector_stats (stocks : List Snapshot) : Dict SectorStats :=
  let by_sec := stocks.foldl
    (fun d s => dupsert d (s.sector.getD "?") (fun a => sectorAccAdd a s) emptySectorAcc) []
  by_sec.filterMap fun e =>
    let d := e.2
    let n := d.count
    if n = 0 then none
    else some (e.1,
      { count := n, bull_pct := pyRound 1 ((d.bull : ℚ) / n * 100),
        avg_chg := pyRound 2 (d.chg_sum / n), avg_pcr := pyRound 2 (d.pcr_sum / n),
        avg_vol := pyRound 2 (d.vol_sum / n), avg_dlv := pyRound 2 (d.dlv_sum / n),
        avg_oi_chg := pyRound 2 (d.oi_chg_sum / n),
        call_oi_sum := d.call_oi_sum, put_oi_sum := d.put_oi_sum })

/-- The nested `_norm` helper of `compute_sector_direction`, positive-good
branch: a piecewise ramp mapping a level to a −1..1 contribution. -/
def sectorNormPos (v : ℚ) : ℚ :=
  if v ≥ 1.5 then 1 else if v ≥ 1.0 then (v - 1) * 2 else if v ≥ 0.5 then -0.5 else -1

/-- `_norm(v, pos_good)`: the negative-good branch negates the positive one. -/
def sectorNorm (v : ℚ) (pos_good : Bool) : ℚ :=
  if pos_good then sectorNormPos v else -(sectorNormPos v)

/-- signals.py `compute_sector_direction` (default `threshold=0.3` passed
explicitly).  `past` is the window-ago stats dict, possibly empty (`none`);
the `prev` parameter is accepted but, as in the source, never read. -/
def compute_sector_direction (now : SectorStats) (past : Option SectorStats)
    (prev : Option SectorStats) (chg_delta : ℚ)
    (agg_call_chg agg_put_chg : Option ℚ) (threshold : ℚ) : String × ℚ :=
  let dlv_now := now.avg_dlv
  let dlv_past := match past with | some p => p.avg_dlv | none => dlv_now
  let dlv_delta := dlv_now - dlv_past
  let vol_now := now.avg_vol
  let vol_past := match past with | some p => p.avg_vol | none => vol_now
  let vol_delta := vol_now - vol_past
  let avg_chg := now.avg_chg
  let oi_chg := now.avg_oi_chg
  let score : ℚ :=
    sectorNorm dlv_now true * 0.2
    + (if dlv_delta > 0.1 then (1 : ℚ) else if dlv_delta < -0.1 then -1 else 0) * 0.15
    + sectorNorm vol_now true * 0.2
    + (if vol_delta > 0.1 then (1 : ℚ) else if vol_delta < -0.1 then -1 else 0) * 0.15
    + (if avg_chg > 1 then (1 : ℚ) else if avg_chg < -1 then -1 else 0) * 0.2
    + (if chg_delta > 0.5 then (1 : ℚ) else if chg_delta < -0.5 then -1 else 0) * 0.15
    + (if oi_chg > 2 then (1 : ℚ) else if oi_chg < -2 then -1 else 0) * 0.15
    + (match agg_call_chg with
       | some c => (if c > 2 then (1 : ℚ) else if c < -2 then -1 else 0) * 0.1
       | none => 0)
    + (match agg_put_chg with
       | some p => (if p > 2 then (-1 : ℚ) else if p < -2 then 1 else 0) * 0.1
       | none => 0)
  let direction :=
    if score > threshold then "Improving"
    else if score < -threshold then "Declining" else "Stable"
  (direction, pyRound 2 score)

/-- One entry of a sector row's drill-down `stocks_list`. -/
structure SectorStockRow where
  symbol : String
  change_pct : ℚ
  oi_trend : String
  pcr : ℚ
  volume_times : ℚ
  delivery_times : ℚ
  score : ℤ
  cumulative_call_oi : Option ℚ
  cumulative_put_oi : Option ℚ
  cumulative_future_oi : Option ℚ
  oi_change_pct : ℚ
  call_oi_change_pct : Option ℚ
  put_oi_change_pct : Option ℚ
  pcr_change_1d : ℚ
  mcap_category : String
  deriving DecidableEq, Repr

/-- The drill-down dict built per stock from the enriched snapshot. -/
def sectorStockRowOf (se : Snapshot) : SectorStockRow :=
  { symbol := se.symbol.getD "", change_pct := se.change_pct.getD 0,
    oi_trend := se.oi_trend.getD "", pcr := se.pcr.getD 0,
    volume_times := se.volume_times.getD 0, delivery_times := se.delivery_times.getD 0,
    score := base_score se,
    cumulative_call_oi := se.cumulative_call_oi, cumulative_put_oi := se.cumulative_put_oi,
    cumulative_future_oi := se.cumulative_future_oi,
    oi_change_pct := se.oi_change_pct.getD 0,
    call_oi_change_pct := se.call_oi_change_pct, put_oi_change_pct := se.put_oi_change_pct,
    pcr_change_1d := se.pcr_change_1d.getD 0, mcap_category := se.mcap_category.getD "" }

/-- One row of the `sector_rotation` dashboard. -/
structure SectorRow where
  sector : String
  stocks : ℕ
  stocks_list : List SectorStockRow
  agg_chg : ℚ
  chg_delta : ℚ
  vol_x : ℚ
  dlv_x : ℚ
  pcr : ℚ
  pcr_delta : ℚ
  agg_call_oi : ℤ
  agg_call_oi_chg : Option ℚ
  agg_put_oi : ℤ
  agg_put_oi_chg : Option ℚ
  direction : String
  direction_score : ℚ
  deriving DecidableEq, Repr

/-- signals.py `sector_rotation._filter`: a date's snapshots, optionally
restricted to one market-cap bucket (`s.get("mcap_category") == mcap_filter`,
where a missing key never equals the filter string). -/
def sectorFilter (data : SigData) (mcap_filter : String) (date : String) :
    List Snapshot :=
  let items := (dget data date []).map Prod.snd
  if mcap_filter ≠ "All" then items.filter (fun s => s.mcap_category = some mcap_filter)
  else items

/-- signals.py `sector_rotation` (default `window=5` passed explicitly):
per-sector aggregates for the last date, deltas against `window` days ago and
against the previous day, direction classification, ranked by
(direction score, aggregate change) descending. -/
def sector_rotation (data : SigData) (dates : List String) (window : ℕ)
    (mcap_filter : String) : List SectorRow :=
  if dates.length < 2 then [] else
  let window := if window = 0 then 0
    else if dates.length < window + 1 then max (dates.length - 1) 1 else window
  let now_stocks := sectorFilter data mcap_filter (dates.getD (dates.length - 1) "")
  let prev_data := dget data (dates.getD (dates.length - 2) "") []
  let stats_now := sector_stats now_stocks
  let sector_stocks := now_stocks.foldl
    (fun d s =>
      let se := enrich_oi_change_pct s (List.lookup (s.symbol.getD "") prev_data)
      dupsert d (s.sector.getD "?") (fun l => l ++ [sectorStockRowOf se]) []) []
  let stats_past := if window > 0 then
      sector_stats (sectorFilter data mcap_filter (dates.getD (dates.length - window - 1) ""))
    else []
  let stats_prev_day := if dates.length ≥ 2 then
      sector_stats (sectorFilter data mcap_filter (dates.getD (dates.length - 2) ""))
    else []
  let rotations := stats_now.map fun e =>
    let sec := e.1
    let now := e.2
    let past := List.lookup sec stats_past
    let prev := (List.lookup sec stats_prev_day).orElse (fun _ => past)
    let pcr_delta := now.avg_pcr - (match past with | some p => p.avg_pcr | none => now.avg_pcr)
    let chg_delta := now.avg_chg - (match past with | some p => p.avg_chg | none => 0)
    let now_call := now.call_oi_sum
    let now_put := now.put_oi_sum
    let past_call := match prev with | some p => p.call_oi_sum | none => 0
    let past_put := match prev with | some p => p.put_oi_sum | none => 0
    let agg_call_chg := if past_call ≠ 0 then pct_chg (some now_call) (some past_call) else none
    let agg_put_chg := if past_put ≠ 0 then pct_chg (some now_put) (some past_put) else none
    let ds := compute_sector_direction now past prev chg_delta agg_call_chg agg_put_chg 0.3
    { sector := sec, stocks := now.count, stocks_list := dget sector_stocks sec [],
      agg_chg := pyRound 2 now.avg_chg, chg_delta := pyRound 2 chg_delta,
      vol_x := pyRound 2 now.avg_vol, dlv_x := pyRound 2 now.avg_dlv,
      pcr := pyRound 2 now.avg_pcr, pcr_delta := pyRound 2 pcr_delta,
      agg_call_oi := truncInt now_call, agg_call_oi_chg := agg_call_chg,
      agg_put_oi := truncInt now_put, agg_put_oi_chg := agg_put_chg,
      direction := ds.1, direction_score := ds.2 }
  pySortBy (fun x y =>
    lexLe2q (y.direction_score, y.agg_chg) (x.direction_score, x.agg_chg)) rotations

/-! ### recommender.py -/

/-- One row of `get_action_sheet` / `get_top_picks`.  Fields read with
`s.get(key)` (no default) stay optional; fields read with an explicit default
carry it. -/
structure Row where
  symbol : String := ""
  conviction : ℤ := 0
  score : ℤ := 0
  rec_score : ℤ := 0
  signals : List String := []
  change_pct : Option ℚ := none
  volume_times : ℚ := 0
  delivery_times : ℚ := 0
  cumulative_future_oi : Option ℚ := none
  oi_change_pct : Option ℚ := none
  cumulative_call_oi : Option ℚ := none
  cumulative_put_oi : Option ℚ := none
  call_oi_change_pct : Option ℚ := none
  put_oi_change_pct : Option ℚ := none
  pcr : ℚ := 0
  pcr_change_1d : ℚ := 0
  oi_trend : String := ""
  mcap_category : String := ""
  sector : String := ""
  industry : String := ""
  lot_size : Option ℚ := none
  close : ℚ := 0
  stock_name : String := ""
  deriving DecidableEq, Repr, Inhabited

/-- recommender.py `_get_sector_bull_delta` (underscore dropped):
`{sector: direction_score}` from `sector_rotation` with a 5-day window; empty
below two dates.  `view_date` is accepted but, as in the source, unread. -/
def get_sector_bull_delta (sig_data : SigData) (dates : List String)
    (view_date : String) (mcap_filter : String) : Dict ℚ :=
  if dates.length < 2 then [] else
  (sector_rotation sig_data dates 5 mcap_filter).map fun r => (r.sector, r.direction_score)

/-- Python `watchlist and sym not in watchlist`: an empty watchlist is falsy,
so it excludes nothing. -/
def watchlistExcludes (watchlist : Option (List String)) (sym : String) : Bool :=
  match watchlist with
  | some w => !w.isEmpty && !(w.contains sym)
  | none => false

/-- recommender.py `get_action_sheet`: the filter chain and row construction
for one view date, ranked by (rec_score, conviction, score) descending. -/
def get_action_sheet (sig_data : SigData) (dates : List String) (view_date : String)
    (mcap_filter : String) (min_conv : ℤ) (min_score : ℤ)
    (watchlist : Option (List String)) (sweet_spot_only : Bool) : List Row :=
  if dates.isEmpty ∨ (List.lookup view_date sig_data).isNone then [] else
  let prev_data := if dates.length ≥ 2 then dget sig_data (dates.getD (dates.length - 2) "") []
                   else []
  let sector_rot := get_sector_bull_delta sig_data dates view_date mcap_filter
  let conv_map := signal_convergence sig_data dates view_date
  let rows := (dget sig_data view_date []).filterMap fun e =>
    let s := e.2
    if mcap_filter ≠ "All" ∧ s.mcap_category ≠ some mcap_filter then none else
    let vol := s.volume_times.getD 0
    let pcr := s.pcr.getD 1
    if vol < 0.7 ∧ pcr ≥ 1 then none else
    let sc := base_score s
    if sweet_spot_only ∧ (sc < 20 ∨ sc > 34) then none else
    let s_enriched := enrich_oi_change_pct s (List.lookup e.1 prev_data)
    let conv := (outrunner_conviction s_enriched).conviction
    if conv < min_conv ∨ sc < min_score then none else
    if watchlistExcludes watchlist e.1 then none else
    let signals := (List.lookup e.1 conv_map).getD []
    let sector_dir_score := (List.lookup (s.sector.getD "?") sector_rot).getD 0
    let sector_bonus : ℤ := if sector_dir_score > 0.3 then 3
                            else if sector_dir_score ≥ 0 then 1 else 0
    let conv_bonus : ℤ := (signals.length : ℤ) * 2
    let rec_score := conv + sc + conv_bonus + sector_bonus
    some { symbol := e.1, conviction := conv, score := sc, rec_score := rec_score,
           signals := signals, change_pct := s.change_pct,
           volume_times := s.volume_times.getD 0, delivery_times := s.delivery_times.getD 0,
           cumulative_future_oi := s.cumulative_future_oi, oi_change_pct := s.oi_change_pct,
           cumulative_call_oi := s.cumulative_call_oi, cumulative_put_oi := s.cumulative_put_oi,
           call_oi_change_pct := s_enriched.call_oi_change_pct,
           put_oi_change_pct := s_enriched.put_oi_change_pct,
           pcr := s.pcr.getD 0, pcr_change_1d := s.pcr_change_1d.getD 0,
           oi_trend := s.oi_trend.getD "", mcap_category := s.mcap_category.getD "",
           sector := s.sector.getD "", industry := s.industry.getD "",
           lot_size := s.lot_size, close := s.close.getD 0,
           stock_name := s.stock_name.getD "" }
  pySortBy (fun x y =>
    lexLe3 (y.rec_score, y.conviction, y.score) (x.rec_score, x.conviction, x.score)) rows

/-- recommender.py `get_top_picks`: the action sheet restricted to the sweet
spot, truncated to the top `top_n` (default 7). -/
def get_top_picks (sig_data : SigData) (dates : List String) (view_date : String)
    (mcap_filter : String) (top_n : ℕ) : List Row :=
  (get_action_sheet sig_data dates view_date mcap_filter 0 0 none true).take top_n

/-- Result of `get_historical_top7_performance`. -/
structure HistPerf where
  total_picks : ℕ
  green_count : ℕ
  green_pct : ℚ
  avg_chg_pct : ℚ
  details : List (String × String × ℚ)
  deriving DecidableEq, Repr

/-- One iteration of `get_historical_top7_performance`'s outer loop
(`for i in range(-(lookback_days + 1), -1)`, here `i = -(lookback_days+1)+j`):
re-run `get_top_picks` on `dates[:idx+2]` — note: that slice includes
`dates[idx+1]`, the day AFTER the view date `dates[idx]` — and collect
`(date, symbol, raw next-day pct)` per surviving pick. -/
def histTransitionResults (sig_data : SigData) (dates : List String)
    (lookback_days j : ℕ) : List (String × String × ℚ) :=
  let i : ℤ := -((lookback_days : ℤ) + 1) + j
  if i + dates.length < 0 then [] else
  let idx := (i + dates.length).toNat
  let dt := dates.getD idx ""
  let next_dt := dates.getD (idx + 1) ""
  let dates_up_to := dates.take (idx + 2)
  let picks := get_top_picks sig_data dates_up_to dt "All" 7
  picks.filterMap fun p =>
    if p.close ≤ (0 : ℚ) then none else
    match List.lookup p.symbol (dget sig_data next_dt []) with
    | none => none
    | some nd =>
        if nd.close.getD 0 ≤ (0 : ℚ) then none
        else some (dt, p.symbol, (nd.close.getD 0 - p.close) / p.close * 100)

/-- recommender.py `get_historical_top7_performance` (default
`lookback_days=5` passed explicitly): walk the last `lookback_days`
transitions via `histTransitionResults` and aggregate green count, total
count, average return and the first 10 details. -/
def get_historical_top7_performance (sig_data : SigData) (dates : List String)
    (lookback_days : ℕ) : Option HistPerf :=
  if dates.length < lookback_days + 1 then none else
  let results : List (String × String × ℚ) :=
    ((List.range lookback_days).map (histTransitionResults sig_data dates lookback_days)).flatten
  if results.length = 0 then none else
  some { total_picks := results.length
         green_count := (results.filter (fun r => r.2.2 > 0)).length
         green_pct := pyRound 0 (((results.filter (fun r => r.2.2 > 0)).length : ℚ)
                        / results.length * 100)
         avg_chg_pct := pyRound 2 ((results.map (fun r => r.2.2)).sum / results.length)
         details := (results.map (fun r => (r.1, r.2.1, pyRound 2 r.2.2))).take 10 }

/-- C4: a symbol whose view-date snapshot scores outside [20, 34] never
appears in `get_top_picks`: every returned row carries
`score = base_score` of the symbol's snapshot, and that score is in
[20, 34]. -/
theorem get_top_picks_sweet_spot (sig_data : SigData) (dates : List String)
    (view_date : String) (mcap_filter : String) (top_n : ℕ) (r : Row) (s : Snapshot)
    (hnd : (dkeys (dget sig_data view_date [])).Nodup)
    (hr : r ∈ get_top_picks sig_data dates view_date mcap_filter top_n)
    (hs : List.lookup r.symbol (dget sig_data view_date []) = some s) :
    r.score = base_score s ∧ 20 ≤ base_score s ∧ base_score s ≤ 34 := by
  rw [get_top_picks] at hr
  have hr2 := List.mem_of_mem_take hr
  simp only [get_action_sheet, true_and] at hr2
  split_ifs at hr2 with hg hlen
  · simp at hr2
  all_goals
    rw [mem_pySortBy, List.mem_filterMap] at hr2
    obtain ⟨⟨k, s0⟩, he, heq⟩ := hr2
    split_ifs at heq with h1 h2 h3 h4 h5
    all_goals cases heq
    all_goals
      push_neg at h3
      try simp only at h3
      have hs2 : List.lookup k (dget sig_data view_date []) = some s := hs
      have hlk := lookup_eq_some_of_mem_nodup hnd he
      rw [hs2] at hlk
      cases hlk
      refine ⟨rfl, ?_, ?_⟩ <;> omega

/-- A sweet-spot snapshot (score 21) passing the liquidity guard. -/
def c4snap : Snapshot :=
  { oi_trend := some "NewLong", pcr := some 0.6, oi_change_pct := some 12,
    volume_times := some 1, close := some 50 }

/-- One-day data set for the sweet-spot witness. -/
def c4data : SigData := [("2024-01-01", [("X", c4snap)])]

/-- The row `get_top_picks` returns for the one-day data set. -/
def c4row : Row := (get_top_picks c4data ["2024-01-01"] "2024-01-01" "All" 7).headD default

/-- Witness for C4 at the concrete one-day data set. -/
theorem get_top_picks_sweet_spot_witness :
    c4row.score = base_score c4snap ∧ 20 ≤ base_score c4snap ∧ base_score c4snap ≤ 34 :=
  get_top_picks_sweet_spot c4data ["2024-01-01"] "2024-01-01" "All" 7 c4row c4snap
    (by with_unfolding_all decide) (by with_unfolding_all decide)
    (by with_unfolding_all decide)

/-- C10: the components disagree on the default for a missing "pcr" key.
`base_score` reads it as 0: its PCR-level term contributes the bullish +7 and
the `pcr < 1` conjuncts of the PCR-change clause and of the confluence bonus
hold automatically (first conjunct).  `outrunner_conviction` reads it as 1:
the recorded "PCR Signal" points are 0 and the whole result equals the one
for an explicit `pcr = 1` (second and third conjuncts).  `pcr_extremes` reads
it as 1, placing the symbol in neither the low (≤ 0.5) nor the high (≥ 1.5)
bucket (fourth conjunct). -/
theorem missing_pcr_defaults (s : Snapshot) (hp : s.pcr = none) :
    (base_score s =
      OI_SCORES (s.oi_trend.getD "") + 7
      + (if s.pcr_change_1d.getD 0 > 0.1 then -3
         else if s.pcr_change_1d.getD 0 < -0.1 then 3
         else if s.pcr_change_1d.getD 0 < 0 then 2 else 0)
      + (if s.oi_change_pct.getD 0 > 10 then 8 else if s.oi_change_pct.getD 0 > 5 then 5
         else if s.oi_change_pct.getD 0 > 2 then 3 else if s.oi_change_pct.getD 0 > 0 then 1
         else if s.oi_change_pct.getD 0 ≤ -5 then -3 else 0)
      + (if s.volume_times.getD 0 > 2.0 then 5 else if s.volume_times.getD 0 > 1.5 then 4
         else if s.volume_times.getD 0 > 1.2 then 2 else if s.volume_times.getD 0 > 1.0 then 1
         else if s.volume_times.getD 0 ≤ 0.7 then -2 else 0)
      + (if s.delivery_times.getD 0 > 2.0 then 7 else if s.delivery_times.getD 0 > 1.5 then 5
         else if s.delivery_times.getD 0 > 1.2 then 3 else if s.delivery_times.getD 0 > 1.0 then 2
         else if s.delivery_times.getD 0 ≤ 0.7 then -2 else 0)
      + (if s.change_pct.getD 0 > 3 then 5 else if s.change_pct.getD 0 > 1 then 2
         else if s.change_pct.getD 0 > -1 then 0 else if s.change_pct.getD 0 > -3 then -1 else -3)
      + (if s.volume_times.getD 0 > 1.0 ∧ s.delivery_times.getD 0 > 1.0 ∧ s.change_pct.getD 0 > 0
         then 2 else 0)) ∧
    (List.lookup "PCR Signal" (outrunner_conviction s).reasons = some 0) ∧
    (outrunner_conviction s = outrunner_conviction { s with pcr := some 1 }) ∧
    (∀ (data : SigData) (date sym : String),
      (dkeys (dget data date [])).Nodup → (sym, s) ∈ dget data date [] →
      sym ∉ (pcr_extremes data date 0.5 1.5).low_pcr.map PcrEntry.symbol ∧
      sym ∉ (pcr_extremes data date 0.5 1.5).high_pcr.map PcrEntry.symbol) := by
  refine ⟨?_, ?_, ?_, ?_⟩
  · simp only [base_score, hp, Option.getD_none]
    rw [bonus_split]
    norm_num
  · simp only [outrunner_conviction, hp, Option.getD_none]
    simp [List.lookup, convPcrPts]
    norm_num
  · simp [outrunner_conviction, hp, convPcrPts]
  · intro data date sym hnd hmem
    constructor
    · intro hin
      simp only [pcr_extremes, List.mem_map, mem_pySortBy, List.mem_filterMap] at hin
      obtain ⟨ent, ⟨⟨k, s0⟩, he, hent⟩, hsym⟩ := hin
      split_ifs at hent with hcond
      cases hent
      simp only [pcrEntryOf] at hsym hcond
      subst hsym
      have hlk := lookup_eq_some_of_mem_nodup hnd he
      have hlk2 := lookup_eq_some_of_mem_nodup hnd hmem
      rw [hlk2] at hlk
      cases hlk
      rw [hp] at hcond
      norm_num at hcond
    · intro hin
      simp only [pcr_extremes, List.mem_map, mem_pySortBy, List.mem_filterMap] at hin
      obtain ⟨ent, ⟨⟨k, s0⟩, he, hent⟩, hsym⟩ := hin
      split_ifs at hent with hcond hcond2
      all_goals cases hent
      simp only [pcrEntryOf] at hsym hcond2
      subst hsym
      have hlk := lookup_eq_some_of_mem_nodup hnd he
      have hlk2 := lookup_eq_some_of_mem_nodup hnd hmem
      rw [hlk2] at hlk
      cases hlk
      rw [hp] at hcond2
      norm_num at hcond2

/-- An entirely empty snapshot (every key missing, in particular "pcr"). -/
def c10snap : Snapshot := { }

/-- One-day data set containing only the empty snapshot. -/
def c10data : SigData := [("2024-01-01", [("A", c10snap)])]

/-- Witness for C10 at the all-defaults snapshot. -/
theorem missing_pcr_defaults_witness :
    (List.lookup "PCR Signal" (outrunner_conviction c10snap).reasons = some 0) ∧
    (outrunner_conviction c10snap = outrunner_conviction { c10snap with pcr := some 1 }) ∧
    ("A" ∉ (pcr_extremes c10data "2024-01-01" 0.5 1.5).low_pcr.map PcrEntry.symbol) ∧
    ("A" ∉ (pcr_extremes c10data "2024-01-01" 0.5 1.5).high_pcr.map PcrEntry.symbol) := by
  have h := missing_pcr_defaults c10snap rfl
  have h4 := h.2.2.2 c10data "2024-01-01" "A" (by decide) (by decide)
  exact ⟨h.2.1, h.2.2.1, h4.1, h4.2⟩

/-- Sweet-spot snapshot with call OI, for the lookahead failing input. -/
def c8snap : Snapshot :=
  { oi_trend := some "NewLong", pcr := some 0.6, oi_change_pct := some 12,
    volume_times := some 1, close := some 50, cumulative_call_oi := some 5 }

/-- The next day's snapshot for the same symbol (close 55, Neutral trend). -/
def c8next : Snapshot := { oi_trend := some "Neutral", close := some 55 }

/-- Two-day data set on which the historical evaluator's date slicing is
observable. -/
def c8data : SigData :=
  [("2024-01-01", [("X", c8snap)]), ("2024-01-02", [("X", c8next)])]

/-- C8: evaluating the code at the failing input.
`get_historical_top7_performance` computes the picks for view date
`2024-01-01` from `dates[:idx+2]` — both dates, including the NEXT day —
whereas the claim requires only the dates up to and including the view date
(`dates[:idx+1]`).  The two calls differ (with both dates present the view
date itself is taken as the "previous day", so the pick carries
`call_oi_change_pct = some 0` instead of `none`, and the next-day data feeds
sector rotation and signal convergence), so the function does not re-run
`get_top_picks` on lookahead-free data; the second conjunct shows the
function evaluating on exactly that slice. -/
theorem historical_top7_lookahead :
    (get_top_picks c8data ["2024-01-01", "2024-01-02"] "2024-01-01" "All" 7
      ≠ get_top_picks c8data ["2024-01-01"] "2024-01-01" "All" 7) ∧
    histTransitionResults c8data ["2024-01-01", "2024-01-02"] 1 0
      = [("2024-01-01", "X", 10)] ∧
    get_historical_top7_performance c8data ["2024-01-01", "2024-01-02"] 1
      = some { total_picks := 1, green_count := 1, green_pct := 100,
               avg_chg_pct := 10, details := [("2024-01-01", "X", 10)] } := by
  with_unfolding_all decide

/-! ### loader.py DataCache price helpers and scorer.py run_backtest -/

/-- One OHLC bar (loader.py stores `doc.get("open"/"high"/"low"/"close", 0)`,
so all four fields are present). -/
structure Ohlc where
  open_price : ℚ
  high : ℚ
  low : ℚ
  close : ℚ
  deriving DecidableEq, Repr

/-- loader.py `DataCache`: date→symbol→snapshot, symbol→date→OHLC, and the
ascending date list. -/
structure DataCache where
  data : Dict (Dict Snapshot)
  ohlc : Dict (Dict Ohlc)
  dates : List String
  deriving DecidableEq, Repr

/-- loader.py `DataCache.MAX_GAP`: max sane open-vs-close gap, percent. -/
def MAX_GAP : ℚ := 20.0

/-- The entry-resolution block `exit_price` and `multi_exit` share verbatim:
prefer the OHLC open at date `d` when the bar exists, its open is positive
and the open-vs-signal-close gap is within `MAX_GAP` percent; otherwise keep
`entry_close`.  A missing or invalid bar therefore only changes the entry,
it does not reject the trade. -/
def resolveEntry (cache : DataCache) (symbol : String) (entry_close : ℚ)
    (d : String) : ℚ :=
  match List.lookup d (dget cache.ohlc symbol []) with
  | some bar =>
      if bar.open_price > 0 then
        if |(bar.open_price - entry_close) / entry_close * 100| ≤ MAX_GAP
        then bar.open_price else entry_close
      else entry_close
  | none => entry_close

/-- loader.py `DataCache.exit_price` (1-day hold): `none` when the exit-date
snapshot is missing or has close 0, or when the realized entry-to-exit gap
exceeds `MAX_GAP` percent. -/
def exit_price (cache : DataCache) (symbol : String) (entry_close : ℚ)
    (exit_date : String) : Option (ℚ × ℚ) :=
  match List.lookup symbol (dget cache.data exit_date []) with
  | none => none
  | some sd =>
      if sd.close.getD 0 = 0 then none else
      let exit_c := sd.close.getD 0
      let entry := resolveEntry cache symbol entry_close exit_date
      if |(exit_c - entry) / entry * 100| > MAX_GAP then none
      else some (entry, exit_c)

/-- loader.py `DataCache.multi_exit`: exit at `idx + hold` days with the gap
allowance scaled to `MAX_GAP * hold`; entry resolved from day `idx + 1`'s
bar. -/
def multi_exit (cache : DataCache) (symbol : String) (entry_close : ℚ)
    (idx hold : ℕ) : Option (ℚ × ℚ) :=
  if idx + hold ≥ cache.dates.length then none else
  match List.lookup symbol (dget cache.data (cache.dates.getD (idx + hold) "") []) with
  | none => none
  | some sd =>
      if sd.close.getD 0 = 0 then none else
      let exit_c := sd.close.getD 0
      if idx + 1 ≥ cache.dates.length then none else
      let entry := resolveEntry cache symbol entry_close (cache.dates.getD (idx + 1) "")
      if |(exit_c - entry) / entry * 100| > MAX_GAP * hold then none
      else some (entry, exit_c)

/-- One trade dict appended by `run_backtest` (prices and pnl stored
rounded). -/
structure Trade where
  date : String
  exit_date : String
  symbol : String
  score : ℤ
  entry : ℚ
  exit_p : ℚ
  pnl : ℚ
  pnl_pct : ℚ
  deriving DecidableEq, Repr

/-- One equity-curve point. -/
structure EquityPoint where
  date : String
  equity : ℚ
  deriving DecidableEq, Repr

/-- One month's rollup in the `monthly` dict. -/
structure MonthAgg where
  pnl : ℚ
  trades : ℕ
  wins : ℕ
  deriving DecidableEq, Repr

/-- The stats dict `run_backtest` returns (the zero-trade early return fills
every field with its zero; the Python dict there simply lacks
`total_invested`). -/
structure BacktestResult where
  trades : List Trade
  equity : List EquityPoint
  total_trades : ℕ
  total_pnl : ℚ
  total_invested : ℚ
  return_pct : ℚ
  win_rate : ℚ
  profit_factor : ℚ
  avg_win_pct : ℚ
  avg_loss_pct : ℚ
  max_dd : ℚ
  monthly : Dict MonthAgg
  deriving DecidableEq, Repr

/-- A pluggable strategy: `(cache, date) → ranked [(symbol, score, close)]`. -/
abbrev Strategy := DataCache → String → List (String × ℤ × ℚ)

/-- The resolver `run_backtest` uses for one pick:
`exit_price` on the next date when `hold == 1`, else `multi_exit`. -/
def pickResolve (cache : DataCache) (hold : ℕ) (symbol : String) (cl : ℚ)
    (i : ℕ) : Option (ℚ × ℚ) :=
  if hold = 1 then exit_price cache symbol cl (cache.dates.getD (i + 1) "")
  else multi_exit cache symbol cl i hold

/-- The body of `run_backtest`'s inner pick loop: `none` exactly where the
source does `continue` (non-positive signal close, or resolver rejection);
otherwise the trade dict plus the raw (unrounded) pnl the accumulators use. -/
def pickTrade (cache : DataCache) (capital : ℚ) (hold : ℕ) (i : ℕ) (dt : String)
    (p : String × ℤ × ℚ) : Option (Trade × ℚ) :=
  let sym := p.1
  let sc := p.2.1
  let cl := p.2.2
  if cl ≤ 0 then none else
  let r := pickResolve cache hold sym cl i
  let edt := if hold = 1 then cache.dates.getD (i + 1) "" else cache.dates.getD (i + hold) ""
  match r with
  | none => none
  | some (ent, ext) =>
      let sh := capital / ent
      let pnl := (ext - ent) * sh
      let pct := (ext - ent) / ent * 100
      some ({ date := dt, exit_date := edt, symbol := sym, score := sc,
              entry := pyRound 2 ent, exit_p := pyRound 2 ext,
              pnl := pyRound 2 pnl, pnl_pct := pyRound 2 pct }, pnl)

/-- The accepted (trade, raw pnl) pairs of one processed date. -/
def dateResults (cache : DataCache) (strat_fn : Strategy) (top_n hold : ℕ)
    (capital : ℚ) (i : ℕ) : List (Trade × ℚ) :=
  let dt := cache.dates.getD i ""
  ((strat_fn cache dt).take top_n).filterMap (pickTrade cache capital hold i dt)

/-- scorer.py `run_backtest` (defaults `top_n=3, hold=2, capital=100000`
passed explicitly).  The loop `for i, dt in enumerate(dates): if i + hold >=
len(dates): break` processes exactly the indices below `len(dates) - hold`;
`equity` records the running cumulative raw pnl after each processed date;
the stats use the rounded per-trade values exactly where the source does. -/
def run_backtest (cache : DataCache) (strat_fn : Strategy) (top_n hold : ℕ)
    (capital : ℚ) : BacktestResult :=
  let nDays := cache.dates.length - hold
  let perDate := (List.range nDays).map (dateResults cache strat_fn top_n hold capital)
  let results := perDate.flatten
  let trades := results.map Prod.fst
  let total_pnl := (results.map Prod.snd).sum
  let total_inv := capital * (trades.length : ℚ)
  let equity := (List.range nDays).map fun k =>
    ({ date := cache.dates.getD k "",
       equity := (((List.range (k + 1)).map
         (fun j => ((perDate.getD j []).map Prod.snd).sum)).sum) } : EquityPoint)
  if trades = [] then
    { trades := [], equity := equity, total_trades := 0, total_pnl := 0,
      total_invested := 0, return_pct := 0, win_rate := 0, profit_factor := 0,
      avg_win_pct := 0, avg_loss_pct := 0, max_dd := 0, monthly := [] }
  else
    let wins := trades.filter (fun t => t.pnl > 0)
    let losses := trades.filter (fun t => t.pnl ≤ 0)
    let gp := (wins.map (fun t => t.pnl)).sum
    let gl := |(losses.map (fun t => t.pnl)).sum|
    let peakDd := equity.foldl (fun (pd : ℚ × ℚ) p =>
      let peak := if p.equity > pd.1 then p.equity else pd.1
      let dd := peak - p.equity
      (peak, if dd > pd.2 then dd else pd.2)) (0, 0)
    let monthly := trades.foldl (fun m t =>
      dupsert m (t.date.take 7)
        (fun a => { pnl := a.pnl + t.pnl, trades := a.trades + 1,
                    wins := a.wins + (if t.pnl > 0 then 1 else 0) })
        ⟨0, 0, 0⟩) []
    { trades := trades, equity := equity,
      total_trades := trades.length,
      total_pnl := pyRound 2 total_pnl,
      total_invested := pyRound 2 total_inv,
      return_pct := if total_inv ≠ 0 then pyRound 2 (total_pnl / total_inv * 100) else 0,
      win_rate := pyRound 1 ((wins.length : ℚ) / (trades.length : ℚ) * 100),
      profit_factor := if gl ≠ 0 then pyRound 2 (gp / gl) else 0,
      avg_win_pct := if ¬ wins.isEmpty
        then pyRound 2 ((wins.map (fun t => t.pnl_pct)).sum / (wins.length : ℚ)) else 0,
      avg_loss_pct := if ¬ losses.isEmpty
        then pyRound 2 ((losses.map (fun t => t.pnl_pct)).sum / (losses.length : ℚ)) else 0,
      max_dd := pyRound 2 peakDd.2,
      monthly := monthly }

/-- Cache for the C7 counterexample: two dates with valid closes for symbol
X but NO OHLC bars at all. -/
def c7cache : DataCache :=
  { data := [("2024-01-01", [("X", { close := some 50 })]),
             ("2024-01-02", [("X", { close := some 55 })])]
    ohlc := []
    dates := ["2024-01-01", "2024-01-02"] }

/-- A constant strategy picking X at close 50. -/
def c7strat : Strategy := fun _ _ => [("X", 25, 50)]

/-- C7 counterexample: the OHLC bar for the pick's entry date is missing,
yet the pick is NOT rejected — the entry falls back to the signal-day close
and the trade is recorded and counted (`total_trades = 1`), contradicting
the claim that a missing/invalid OHLC bar rejects the pick entirely. -/
theorem run_backtest_missing_ohlc_trade_counted :
    List.lookup "2024-01-02" (dget c7cache.ohlc "X" []) = none ∧
    (run_backtest c7cache c7strat 3 1 100000).total_trades = 1 ∧
    (run_backtest c7cache c7strat 3 1 100000).trades.map Trade.symbol = ["X"] := by
  with_unfolding_all decide

lemma pickTrade_isSome (cache : DataCache) (capital : ℚ) (hold i : ℕ)
    (dt : String) (p : String × ℤ × ℚ) :
    (pickTrade cache capital hold i dt p).isSome
      = (decide (0 < p.2.2) && (pickResolve cache hold p.1 p.2.2 i).isSome) := by
  rcases p with ⟨sym, sc, cl⟩
  by_cases h : cl ≤ 0
  · simp [pickTrade, h, not_lt.mpr h]
  · rcases hr : pickResolve cache hold sym cl i with _ | ⟨ent, ext⟩ <;>
      simp [pickTrade, h, hr, lt_of_not_le h]

lemma length_filterMap_eq_countP (f : α → Option β) (l : List α) :
    (l.filterMap f).length = l.countP (fun x => (f x).isSome) := by
  induction l with
  | nil => simp
  | cons a rest ih =>
      rw [List.filterMap_cons, List.countP_cons]
      rcases h : f a with _ | b
      · simp [h, ih]
      · simp [h, ih]

lemma dateResults_length (cache : DataCache) (strat_fn : Strategy)
    (top_n hold : ℕ) (capital : ℚ) (i : ℕ) :
    (dateResults cache strat_fn top_n hold capital i).length
      = (((strat_fn cache (cache.dates.getD i "")).take top_n).filter
          (fun p => decide (0 < p.2.2) && (pickResolve cache hold p.1 p.2.2 i).isSome)).length := by
  rw [dateResults, length_filterMap_eq_countP, List.countP_eq_length_filter]
  congr 1
  apply List.filter_congr
  intro p _
  exact pickTrade_isSome cache capital hold i (cache.dates.getD i "") p

/-- C7 amended: a pick is rejected entirely — no trade, not counted —
exactly when the exit-date snapshot is missing or has close 0, or the
realized entry-to-exit gap exceeds `MAX_GAP` (times `hold` for multi-day
holds, with the additional index-range guards), with the entry resolved by
the fallback rule; a missing OHLC bar alone does not reject: it only makes
the entry fall back to the signal-day close; and `total_trades` counts
exactly the accepted picks of every processed date. -/
theorem run_backtest_rejection_amended :
    (∀ (cache : DataCache) (sym : String) (ec : ℚ) (ed : String),
      exit_price cache sym ec ed = none ↔
        (List.lookup sym (dget cache.data ed []) = none ∨
         ∃ sd, List.lookup sym (dget cache.data ed []) = some sd ∧
           (sd.close.getD 0 = 0 ∨
            |(sd.close.getD 0 - resolveEntry cache sym ec ed)
              / resolveEntry cache sym ec ed * 100| > MAX_GAP))) ∧
    (∀ (cache : DataCache) (sym : String) (ec : ℚ) (idx hold : ℕ),
      multi_exit cache sym ec idx hold = none ↔
        (idx + hold ≥ cache.dates.length ∨
         List.lookup sym (dget cache.data (cache.dates.getD (idx + hold) "") []) = none ∨
         ∃ sd, List.lookup sym (dget cache.data (cache.dates.getD (idx + hold) "") []) = some sd ∧
           (sd.close.getD 0 = 0 ∨ idx + 1 ≥ cache.dates.length ∨
            |(sd.close.getD 0 - resolveEntry cache sym ec (cache.dates.getD (idx + 1) ""))
              / resolveEntry cache sym ec (cache.dates.getD (idx + 1) "") * 100|
              > MAX_GAP * hold))) ∧
    (∀ (cache : DataCache) (sym : String) (ec : ℚ) (d : String),
      List.lookup d (dget cache.ohlc sym []) = none → resolveEntry cache sym ec d = ec) ∧
    (∀ (cache : DataCache) (strat_fn : Strategy) (top_n hold : ℕ) (capital : ℚ),
      (run_backtest cache strat_fn top_n hold capital).total_trades
        = ((List.range (cache.dates.length - hold)).map (fun i =>
            (((strat_fn cache (cache.dates.getD i "")).take top_n).filter
              (fun p => decide (0 < p.2.2)
                && (pickResolve cache hold p.1 p.2.2 i).isSome)).length)).sum) := by
  refine ⟨?_, ?_, ?_, ?_⟩
  · intro cache sym ec ed
    rcases h : List.lookup sym (dget cache.data ed []) with _ | sd
    · simp [exit_price, h]
    · simp only [exit_price, h]
      split_ifs with h1 h2
      · constructor
        · intro _
          exact Or.inr ⟨sd, rfl, Or.inl h1⟩
        · intro _
          rfl
      · constructor
        · intro _
          exact Or.inr ⟨sd, rfl, Or.inr h2⟩
        · intro _
          rfl
      · constructor
        · intro hcontra
          exact absurd hcontra (by simp)
        · rintro (hc | ⟨sd2, hsd2, hc⟩)
          · exact absurd hc (by simp)
          · rw [Option.some.injEq] at hsd2
            subst hsd2
            rcases hc with hc | hc
            · exact absurd hc h1
            · exact absurd hc h2
  · intro cache sym ec idx hold
    simp only [List.getD_eq_getElem?_getD]
    by_cases hge : idx + hold ≥ cache.dates.length
    · simp [multi_exit, hge]
    rcases h : List.lookup sym (dget cache.data (cache.dates[idx + hold]?.getD "") [])
        with _ | sd
    · simp only [multi_exit, if_neg hge, List.getD_eq_getElem?_getD, h]
      simp [h]
    · simp only [multi_exit, if_neg hge, List.getD_eq_getElem?_getD, h]
      split_ifs with h1 hnxt hgap
      · exact ⟨fun _ => Or.inr (Or.inr ⟨sd, rfl, Or.inl h1⟩), fun _ => rfl⟩
      · exact ⟨fun _ => Or.inr (Or.inr ⟨sd, rfl, Or.inr (Or.inl hnxt)⟩), fun _ => rfl⟩
      · exact ⟨fun _ => Or.inr (Or.inr ⟨sd, rfl, Or.inr (Or.inr hgap)⟩), fun _ => rfl⟩
      · constructor
        · intro hcontra
          exact absurd hcontra (by simp)
        · rintro (hc | hc | ⟨sd2, hsd2, hc⟩)
          · exact absurd hc hge
          · exact absurd hc (by simp)
          · rw [Option.some.injEq] at hsd2
            subst hsd2
            rcases hc with hc | hc | hc
            · exact absurd hc h1
            · exact absurd hc hnxt
            · exact absurd hc hgap
  · intro cache sym ec d h
    simp [resolveEntry, h]
  · intro cache strat_fn top_n hold capital
    have hlen : (run_backtest cache strat_fn top_n hold capital).total_trades
        = (((List.range (cache.dates.length - hold)).map
            (dateResults cache strat_fn top_n hold capital)).flatten.map Prod.fst).length := by
      simp only [run_backtest]
      by_cases h : (((List.range (cache.dates.length - hold)).map
          (dateResults cache strat_fn top_n hold capital)).flatten.map Prod.fst) = []
      · rw [if_pos h, h]
        rfl
      · rw [if_neg h]
    rw [hlen]
    rw [List.length_map, List.length_flatten, List.map_map]
    congr 1
    apply List.map_congr_left
    intro i _
    exact dateResults_length cache strat_fn top_n hold capital i

/-- Witness for the amended C7 at the concrete cache: the missing OHLC bar
only makes the entry fall back to the signal-day close, and `total_trades`
equals the accepted-pick count. -/
theorem run_backtest_rejection_amended_witness :
    resolveEntry c7cache "X" 50 "2024-01-02" = 50 ∧
    (run_backtest c7cache c7strat 3 1 100000).total_trades
      = ((List.range (c7cache.dates.length - 1)).map (fun i =>
          (((c7strat c7cache (c7cache.dates.getD i "")).take 3).filter
            (fun p => decide (0 < p.2.2)
              && (pickResolve c7cache 1 p.1 p.2.2 i).isSome)).length)).sum :=
  ⟨run_backtest_rejection_amended.2.2.1 c7cache "X" 50 "2024-01-02"
      (by with_unfolding_all decide),
   run_backtest_rejection_amended.2.2.2 c7cache c7strat 3 1 100000⟩

end StocksAnalyzer
